import Mathlib

/-!
# Verification of the `discord-postplant` betting core

Shallow embedding of the session / wager / settlement core of
`src/discord_bot.py` and proofs about it.

Numeric model: Python integers are `Nat` (amounts, payouts) or `Int`
(profits, balances).  Python `int(x)` on a non-negative float product is
truncation toward zero; every float product that the code truncates is of
the form `n * (k/100)` with `n k : Nat`, which we embed with its exact
rational value as the natural-number division `n * k / 100`
(`int(n*0.25) = n*25/100`, `int(n*0.20) = n*20/100`,
`int(n*0.05) = n*5/100`).  The random multiplier
`round(random.uniform(1.05, 1.20), 2)` is a 2-decimal value in
[1.05, 1.20]; it is embedded as a natural number of hundredths
`m` with `105 ≤ m ≤ 120`, and `int(payout * multiplier)` becomes
`payout * m / 100`.  The per-bettor independent draws are injected as a
function `mult : UserId → Nat`.
-/

namespace DiscordPostplant

/-! ### Definitions (shallow embedding of `discord_bot.py`) -/

/-- Discord user ids: the Python code keys everything by `str(user.id)`. -/
abbrev UserId := String

/-- `STARTING_BALANCE = 100` (`discord_bot.py` line 29). -/
def STARTING_BALANCE : Int := 100

/-- `GROUP_WAIT_TIME = 15` (`discord_bot.py` line 49): debounce quiet period. -/
def GROUP_WAIT_TIME : Nat := 15

/-- A side of a wager pool: the `"win"` / `"loss"` strings of the Python code. -/
inductive Side
  | win
  | loss
deriving DecidableEq, Repr

/-- The `bets` dict of a pool: `{"win": {bettor: amount}, "loss": {bettor: amount}}`,
modelled as association lists in insertion order. -/
structure Bets where
  win : List (UserId × Nat)
  loss : List (UserId × Nat)
deriving DecidableEq, Repr

/-- `sum(bets[side].values())`. -/
def sideTotal (l : List (UserId × Nat)) : Nat := (l.map (fun p => p.2)).sum

/-- `total_pool = win_pool + loss_pool` (line 809). -/
def poolTotal (b : Bets) : Nat := sideTotal b.win + sideTotal b.loss

/-- Select one side's bets dict. -/
def sideOf (b : Bets) : Side → List (UserId × Nat)
  | .win => b.win
  | .loss => b.loss

/-- House cut in percent: `0.05 if total_pool >= 100 else 0.0` (lines 811-815). -/
def houseCutPct (total_pool : Nat) : Nat := if 100 ≤ total_pool then 5 else 0

/-- `house_take = int(total_pool * house_cut)` (line 866), exact-rational model. -/
def houseTake (total_pool : Nat) : Nat := total_pool * houseCutPct total_pool / 100

/-- One entry of the dict returned by `calculate_payouts`:
`{"payout": int, "profit": int, "bet": int, "side": str, "multiplier": float}`.
The multiplier is recorded in hundredths (`some 110` for `1.10`). -/
structure BetResult where
  payout : Nat
  profit : Int
  bet : Nat
  side : Side
  multiplier : Option Nat
deriving DecidableEq, Repr

/-- `calculate_payouts(bet_data, outcome)` (`discord_bot.py` lines 799-883).
`mult` injects the per-bettor random draw (hundredths of the multiplier);
the Python code draws `round(random.uniform(1.05, 1.20), 2)` independently
inside each winner loop iteration.  The result dict is modelled as the
association list: loser entries (inserted first, lines 827-829) followed by
winner entries in insertion order. -/
def calculate_payouts (bets : Bets) (outcome : Side) (mult : UserId → Nat) :
    List (UserId × BetResult) :=
  let win_pool := sideTotal bets.win
  let loss_pool := sideTotal bets.loss
  let total_pool := win_pool + loss_pool
  let winning_side := if outcome = Side.win then Side.win else Side.loss
  let losing_side := if outcome = Side.win then Side.loss else Side.win
  let winning_bets := sideOf bets winning_side
  let losing_bets := sideOf bets losing_side
  let winning_pool_total := sideTotal winning_bets
  let losing_pool_total := sideTotal losing_bets
  -- Initialize losers (lines 827-829)
  let results0 := losing_bets.map fun p =>
    (p.1, BetResult.mk 0 (-(p.2 : Int)) p.2 losing_side none)
  -- Edge case: no bets at all (lines 831-833)
  if total_pool = 0 then results0
  -- Edge case: no one bet on the winning side (lines 835-837)
  else if winning_pool_total = 0 then results0
  -- Edge case: only one person bet in total (lines 839-850)
  else if winning_bets.length + losing_bets.length = 1 then
    results0 ++ winning_bets.map fun p =>
      let bonus := max 1 (p.2 * 25 / 100)
      if winning_side = Side.win then
        let m := mult p.1
        let bonus2 := bonus * m / 100
        (p.1, BetResult.mk (p.2 + bonus2) (bonus2 : Int) p.2 winning_side (some m))
      else
        (p.1, BetResult.mk (p.2 + bonus) (bonus : Int) p.2 winning_side none)
  -- Edge case: no one bet on the losing side (lines 852-863)
  else if losing_pool_total = 0 then
    results0 ++ winning_bets.map fun p =>
      let bonus := max 1 (p.2 * 20 / 100)
      if winning_side = Side.win then
        let m := mult p.1
        let bonus2 := bonus * m / 100
        (p.1, BetResult.mk (p.2 + bonus2) (bonus2 : Int) p.2 winning_side (some m))
      else
        (p.1, BetResult.mk (p.2 + bonus) (bonus : Int) p.2 winning_side none)
  -- Normal case: pari-mutuel payout (lines 865-883)
  else
    let payout_pool := total_pool - houseTake total_pool
    results0 ++ winning_bets.map fun p =>
      let payout := payout_pool * p.2 / winning_pool_total
      if winning_side = Side.win then
        let m := mult p.1
        let payout2 := payout * m / 100
        (p.1, BetResult.mk payout2 ((payout2 : Int) - (p.2 : Int)) p.2 winning_side (some m))
      else
        (p.1, BetResult.mk payout ((payout : Int) - (p.2 : Int)) p.2 winning_side none)

/-- Look a bettor up in a settlement result (dict access `results[uid]`). -/
def lookupResult (rs : List (UserId × BetResult)) (u : UserId) : Option BetResult :=
  (rs.find? (fun p => p.1 = u)).map (fun p => p.2)

/-- Sum of the payouts of every entry of a settlement result
(losers contribute 0). -/
def totalPayout (rs : List (UserId × BetResult)) : Nat :=
  (rs.map (fun p => p.2.payout)).sum

/-- The sole-bettor bonus as the spec words it: `max(1, round(0.25×stake))`,
rounding to the nearest integer (Mathlib `round` over `ℚ`).  Stated only to
compare the spec's `round` with the code's truncating `int(amount * 0.25)`
(line 842). -/
def specSoleBonus (stake : Nat) : Int := max 1 (round ((stake : ℚ) * (25 / 100)))

/-- A betting-pool key `(guild_id, player_user_id)` (line 1153). -/
abbrev BetKey := Nat × UserId

/-- One active pool: the fields of `active_bets[bet_key]` the core logic
reads (`bets`, `closes_at`, `closed`).  Presentation fields (message, player
names) are omitted. -/
structure BetPool where
  bets : Bets
  closesAt : Nat
  closed : Bool

/-- The shared mutable state: `user_balances` (each account reduced to its
`"balance"` field — the daily-bonus bookkeeping fields are irrelevant here)
and `active_bets`.  `none` means the user has no account / the key has no
pool. -/
structure BotState where
  balances : UserId → Option Int
  activeBets : BetKey → Option BetPool

/-- `get_balance(user_id)` (lines 118-129): creates the account with
`STARTING_BALANCE` if absent, returns the balance and the (possibly
extended) state. -/
def get_balance (s : BotState) (u : UserId) : Int × BotState :=
  match s.balances u with
  | some b => (b, s)
  | none =>
      (STARTING_BALANCE,
       { s with balances := fun v => if v = u then some STARTING_BALANCE else s.balances v })

/-- `update_balance(user_id, amount)` (lines 132-139): ensures the account
exists, adds `amount` (possibly negative) and clamps a negative result to 0. -/
def update_balance (s : BotState) (u : UserId) (amount : Int) : BotState :=
  let p := get_balance s u
  let b := p.1 + amount
  let b2 := if b < 0 then 0 else b
  { p.2 with balances := fun v => if v = u then some b2 else p.2.balances v }

/-- `set_balance(user_id, amount)` (lines 142-147): stores `max(0, amount)`. -/
def set_balance (s : BotState) (u : UserId) (amount : Int) : BotState :=
  let p := get_balance s u
  { p.2 with balances := fun v => if v = u then some (max 0 amount) else p.2.balances v }

/-- The balance `get_balance` returns: the stored balance, defaulting to
`STARTING_BALANCE` for a fresh account. -/
def effectiveBalance (s : BotState) (u : UserId) : Int :=
  (s.balances u).getD STARTING_BALANCE

/-- The state after `get_balance` materialized the account. -/
def ensureAccount (s : BotState) (u : UserId) : BotState :=
  { s with balances := fun v => if v = u then some (effectiveBalance s u) else s.balances v }

/-- Wager-placement outcomes of the `/bet` command (lines 1150-1203). -/
inductive BetError
  | noActivePool
  | poolClosed
  | invalidAmount
  | insufficientBalance
  | duplicateWager
deriving DecidableEq, Repr

/-- Does this user already have a wager on either side? (lines 1186-1191). -/
def hasWager (b : Bets) (u : UserId) : Bool :=
  b.win.any (fun p => p.1 = u) || b.loss.any (fun p => p.1 = u)

/-- `bet_data["bets"][outcome][user_id] = amount` (line 1203). -/
def recordBet (b : Bets) (side : Side) (bettor : UserId) (amount : Nat) : Bets :=
  match side with
  | .win => { b with win := b.win ++ [(bettor, amount)] }
  | .loss => { b with loss := b.loss ++ [(bettor, amount)] }

/-- The `/bet` command (lines 1150-1203).  `now` is the current timestamp;
presentation (embed updates, messages) is out of scope. -/
def bet (s : BotState) (now : Nat) (key : BetKey) (bettor : UserId) (side : Side)
    (amount : Int) : Except BetError Unit × BotState :=
  match s.activeBets key with
  | none => (.error .noActivePool, s)
  | some pool =>
    if pool.closed = true ∨ pool.closesAt < now then (.error .poolClosed, s)
    else if amount ≤ 0 then (.error .invalidAmount, s)
    else
      let p := get_balance s bettor
      if p.1 < amount then (.error .insufficientBalance, p.2)
      else if hasWager pool.bets bettor then (.error .duplicateWager, p.2)
      else
        let s2 := update_balance p.2 bettor (-amount)
        let pool2 := { pool with bets := recordBet pool.bets side bettor amount.toNat }
        (.ok (), { s2 with activeBets := fun k => if k = key then some pool2 else s2.activeBets k })

/-- Credit every bettor with a positive payout (lines 904-907). -/
def apply_payouts (s : BotState) (payouts : List (UserId × BetResult)) : BotState :=
  payouts.foldl
    (fun st q => if 0 < q.2.payout then update_balance st q.1 (q.2.payout : Int) else st) s

/-- `resolve_bets(bet_key, outcome)` (lines 886-907): pop the pool (no-op
when the key is absent), return early when no bets were placed, otherwise
compute payouts and credit the winners.  Presentation is out of scope. -/
def resolve_bets (s : BotState) (key : BetKey) (outcome : Side)
    (mult : UserId → Nat) : BotState :=
  match s.activeBets key with
  | none => s
  | some pool =>
    let s1 : BotState :=
      { s with activeBets := fun k => if k = key then none else s.activeBets k }
    if poolTotal pool.bets = 0 then s1
    else apply_payouts s1 (calculate_payouts pool.bets outcome mult)

/-- The ledger-mutating operations the spec lists: lazy account creation
(`get_balance`), balance updates (wager debits, payout credits, daily
bonuses — all `update_balance`), and admin balance-setting (`set_balance`). -/
inductive LedgerOp
  | create (u : UserId)
  | update (u : UserId) (amount : Int)
  | setBal (u : UserId) (amount : Int)

/-- Run one ledger operation. -/
def applyLedgerOp (s : BotState) : LedgerOp → BotState
  | .create u => (get_balance s u).2
  | .update u a => update_balance s u a
  | .setBal u a => set_balance s u a

/-- Run a sequence of ledger operations. -/
def applyLedgerOps (s : BotState) (ops : List LedgerOp) : BotState :=
  ops.foldl applyLedgerOp s

/-- Every stored balance is non-negative. -/
def NonnegBalances (s : BotState) : Prop :=
  ∀ u b, s.balances u = some b → 0 ≤ b

/-- A fresh open empty pool (closes at 180, not closed). -/
def c5cexPool : BetPool := { bets := ⟨[], []⟩, closesAt := 180, closed := false }

/-- A state with an empty ledger and one open pool under key `(1, "p")`. -/
def c5cexState : BotState :=
  { balances := fun _ => none,
    activeBets := fun k => if k = ((1 : Nat), ("p" : UserId)) then some c5cexPool else none }

/-- A state with one account ("u", balance 100) and one open pool. -/
def c5wState : BotState :=
  { balances := fun v => if v = "u" then some 100 else none,
    activeBets := fun k => if k = ((1 : Nat), ("p" : UserId)) then some c5cexPool else none }

/-- The pending announcement group for one `(guild_id, match_id)` key: the
queued players and the deadline of the armed debounce task (its arming time
plus the quiet period). -/
structure PendingGroup where
  players : List UserId
  deadline : Nat
deriving DecidableEq, Repr

/-- One arrival handled by `queue_for_announcement` (lines 506-539) in a
discrete-event model of a single group key.  `st` is the pending group (if
any) just before the arrival time `arr.1`.  If the armed task's deadline has
already passed, `process_group_announcement` (lines 542-554) popped and
flushed the group at its deadline and the arrival opens a fresh group;
otherwise the arrival joins the group, the armed task is cancelled
(`task.cancel()`, line 535) and a new one is armed `quiet` units after this
arrival.  Returns the new state and the flushes that occurred. -/
def debounceStep (quiet : Nat) (st : Option PendingGroup) (arr : Nat × UserId) :
    Option PendingGroup × List (Nat × List UserId) :=
  match st with
  | none => (some ⟨[arr.2], arr.1 + quiet⟩, [])
  | some g =>
      if g.deadline ≤ arr.1 then
        (some ⟨[arr.2], arr.1 + quiet⟩, [(g.deadline, g.players)])
      else
        (some ⟨g.players ++ [arr.2], arr.1 + quiet⟩, [])

/-- Run a time-ordered list of arrivals for one group key and let the last
armed task fire: the list of flushes `(time, members)` in order. -/
def debounceRun (quiet : Nat) (arrivals : List (Nat × UserId)) :
    List (Nat × List UserId) :=
  let fin := arrivals.foldl
    (fun acc arr =>
      let r := debounceStep quiet acc.1 arr
      (r.1, acc.2 ++ r.2))
    ((none : Option PendingGroup), ([] : List (Nat × List UserId)))
  match fin.1 with
  | none => fin.2
  | some g => fin.2 ++ [(g.deadline, g.players)]

/-- One tick of `match_poller` (lines 404-419), reduced to cursor movement:
`user_ids = list(active_sessions.keys())`; `poll_index = poll_index % len`;
visit `user_ids[poll_index]`; `poll_index += 1`.  Returns the visited player
and the new cursor (`none` and an unchanged cursor with no sessions). -/
def pollPick (sessions : List UserId) (idx : Nat) : Option UserId × Nat :=
  if sessions.isEmpty then (none, idx)
  else
    let i := idx % sessions.length
    (sessions[i]?, i + 1)

/-- The players visited by `k` consecutive poller ticks when no session is
added or removed in between. -/
def pollVisits (sessions : List UserId) (idx : Nat) : Nat → List (Option UserId)
  | 0 => []
  | k + 1 =>
      let r := pollPick sessions idx
      r.1 :: pollVisits sessions r.2 k

/-! ### Sanity checks, helper lemmas, and claim theorems -/

example :
    calculate_payouts ⟨[("A", 100)], [("B", 100)]⟩ .win (fun _ => 110)
      = [("B", ⟨0, -100, 100, .loss, none⟩),
         ("A", ⟨209, 109, 100, .win, some 110⟩)] := by decide

example :
    calculate_payouts ⟨[], [("A", 40)]⟩ .loss (fun _ => 110)
      = [("A", ⟨50, 10, 40, .loss, none⟩)] := by decide

/-- A list whose per-entry amounts sum to something positive is nonempty. -/
theorem length_pos_of_sideTotal_pos (l : List (UserId × Nat)) (h : 0 < sideTotal l) :
    0 < l.length := by
  cases l with
  | nil => simp [sideTotal] at h
  | cons a t => simp

/-- Sum of truncated quotients is at most the truncated quotient of the sum. -/
theorem sum_div_le_div_sum (l : List Nat) (d : Nat) :
    (l.map (fun x => x / d)).sum ≤ l.sum / d := by
  induction l with
  | nil => simp
  | cons a t ih =>
      simp only [List.map_cons, List.sum_cons]
      calc a / d + (t.map (fun x => x / d)).sum
          ≤ a / d + t.sum / d := Nat.add_le_add_left ih _
        _ ≤ (a + t.sum) / d := Nat.add_div_le_add_div _ _ _

/-- `totalPayout` distributes over list append. -/
theorem totalPayout_append (a b : List (UserId × BetResult)) :
    totalPayout (a ++ b) = totalPayout a + totalPayout b := by
  simp [totalPayout]

/-- The distributable pool `T - int(T*0.05)` exceeds `floor(T*0.95)` by at most 1. -/
theorem dist_pool_le (T : Nat) (hT : 100 ≤ T) :
    T - houseTake T ≤ T * 95 / 100 + 1 := by
  have h5 : houseTake T = T / 20 := by
    unfold houseTake houseCutPct
    rw [if_pos hT, show (100 : Nat) = 20 * 5 from rfl,
        show T * 5 = T * 5 from rfl, Nat.mul_div_mul_right _ _ (by norm_num)]
  have h95 : T * 95 / 100 = T * 19 / 20 := by
    rw [show (95 : Nat) = 19 * 5 from rfl, show (100 : Nat) = 20 * 5 from rfl,
        ← Nat.mul_assoc, Nat.mul_div_mul_right _ _ (by norm_num)]
  rw [h5, h95]
  have hdm := Nat.div_add_mod T 20
  have hm : T % 20 < 20 := Nat.mod_lt _ (by norm_num)
  have hkey : T * 19 / 20 = 19 * (T % 20) / 20 + 19 * (T / 20) := by
    conv_lhs => rw [← hdm]
    rw [show (20 * (T / 20) + T % 20) * 19 = 19 * (T % 20) + 20 * (19 * (T / 20)) by ring]
    rw [Nat.add_mul_div_left _ _ (by norm_num)]
  have hr1 : T % 20 - 1 ≤ 19 * (T % 20) / 20 := by
    rw [Nat.le_div_iff_mul_le (by norm_num : (0:Nat) < 20)]
    omega
  have hq : T / 20 ≤ T := Nat.div_le_self _ _
  omega

/-- C1: For the pool win={A:100}, loss={B:100} with outcome win,
`calculate_payouts` takes a house cut of 10 from the total T=200 leaving a
distributable pool of 190; A's pre-multiplier share is 190; and for every
2-decimal-rounded multiplier draw in [1.05, 1.20] A's final payout lies in
[199, 228], while B's payout is 0 and B's profit is -100. -/
theorem c1_scenario_a (m : Nat) (h1 : 105 ≤ m) (h2 : m ≤ 120) :
    poolTotal ⟨[("A", 100)], [("B", 100)]⟩ = 200 ∧
    houseTake 200 = 10 ∧
    200 - houseTake 200 = 190 ∧
    (200 - houseTake 200) * 100 / sideTotal [(("A" : UserId), (100 : Nat))] = 190 ∧
    ∃ rA rB : BetResult,
      lookupResult (calculate_payouts ⟨[("A", 100)], [("B", 100)]⟩ .win (fun _ => m)) "A"
        = some rA ∧
      lookupResult (calculate_payouts ⟨[("A", 100)], [("B", 100)]⟩ .win (fun _ => m)) "B"
        = some rB ∧
      199 ≤ rA.payout ∧ rA.payout ≤ 228 ∧ rB.payout = 0 ∧ rB.profit = -100 := by
  refine ⟨by decide, by decide, by decide, by decide,
    ⟨190 * m / 100, ((190 * m / 100 : Nat) : Int) - (100 : Int), 100, .win, some m⟩,
    ⟨0, -100, 100, .loss, none⟩, rfl, rfl, ?_, ?_, rfl, rfl⟩
  · show 199 ≤ 190 * m / 100
    rw [Nat.le_div_iff_mul_le (by norm_num : (0:Nat) < 100)]
    omega
  · show 190 * m / 100 ≤ 228
    calc 190 * m / 100 ≤ 190 * 120 / 100 := Nat.div_le_div_right (by omega)
      _ = 228 := by norm_num

/-- Witness for C1 at the concrete draw 1.10 (payout 209). -/
theorem c1_scenario_a_witness :
    ∃ rA rB : BetResult,
      lookupResult (calculate_payouts ⟨[("A", 100)], [("B", 100)]⟩ .win (fun _ => 110)) "A"
        = some rA ∧
      lookupResult (calculate_payouts ⟨[("A", 100)], [("B", 100)]⟩ .win (fun _ => 110)) "B"
        = some rB ∧
      199 ≤ rA.payout ∧ rA.payout ≤ 228 ∧ rB.payout = 0 ∧ rB.profit = -100 :=
  (c1_scenario_a 110 (by decide) (by decide)).2.2.2.2

/-- C2 counterexample: for the pool win={A:100}, loss={B:100} (T=200 ≥ 100,
both sides non-empty, 1 winning-side bettor) with outcome win and the
multiplier draw 1.20, the total winner payout is 228, which exceeds
`floor(T*0.95) + (number of winners)` = 190 + 1 = 191: the win-side random
multiplier can push the total payout past the claimed bound. -/
theorem c2_total_payout_cex :
    (0 < sideTotal [(("A" : UserId), (100 : Nat))] ∧
     0 < sideTotal [(("B" : UserId), (100 : Nat))]) ∧
    100 ≤ poolTotal ⟨[("A", 100)], [("B", 100)]⟩ ∧
    totalPayout (calculate_payouts ⟨[("A", 100)], [("B", 100)]⟩ .win (fun _ => 120)) = 228 ∧
    ¬ (totalPayout (calculate_payouts ⟨[("A", 100)], [("B", 100)]⟩ .win (fun _ => 120))
        ≤ poolTotal ⟨[("A", 100)], [("B", 100)]⟩ * 95 / 100 + 1) := by decide

/-- Loser entries carry payout 0, so they contribute nothing to `totalPayout`. -/
theorem payout_sum_losers (l : List (UserId × Nat)) (sd : Side) :
    totalPayout (l.map fun p => (p.1, BetResult.mk 0 (-(p.2 : Int)) p.2 sd none)) = 0 := by
  induction l with
  | nil => rfl
  | cons a t ih => simpa [totalPayout] using ih

/-- Unfolding of `calculate_payouts` in the general pari-mutuel branch with
outcome `loss` (both sides non-empty, 2+ bettors): each winner receives
`floor(payout_pool * stake / winningSideTotal)`, with no multiplier. -/
theorem calculate_payouts_loss_general (bets : Bets) (mult : UserId → Nat)
    (hT0 : ¬ (sideTotal bets.win + sideTotal bets.loss = 0))
    (hW : ¬ (sideTotal bets.loss = 0))
    (hlen : ¬ (bets.loss.length + bets.win.length = 1))
    (hL : ¬ (sideTotal bets.win = 0)) :
    calculate_payouts bets .loss mult
      = (bets.win.map fun p => (p.1, BetResult.mk 0 (-(p.2 : Int)) p.2 Side.win none))
        ++ (bets.loss.map fun p =>
             let payout := (sideTotal bets.win + sideTotal bets.loss
                 - houseTake (sideTotal bets.win + sideTotal bets.loss))
                   * p.2 / sideTotal bets.loss
             (p.1, BetResult.mk payout ((payout : Int) - (p.2 : Int)) p.2 Side.loss none)) := by
  unfold calculate_payouts
  simp only [sideOf, reduceCtorEq, ite_false, if_false]
  rw [if_neg hT0, if_neg hW, if_neg hlen, if_neg hL]

/-- C2 amended: for every pool whose total T is at least 100 and whose two
sides both have positive totals, when the outcome is `loss` (winning side
"loss", so the win-side random multiplier does not apply) the sum of all
payouts computed by `calculate_payouts` is at most
`floor(T*0.95)` plus the number of winning-side bettors. -/
theorem c2_total_payout_bound (bets : Bets) (mult : UserId → Nat)
    (hT : 100 ≤ poolTotal bets)
    (hW : 0 < sideTotal bets.win) (hL : 0 < sideTotal bets.loss) :
    totalPayout (calculate_payouts bets .loss mult)
      ≤ poolTotal bets * 95 / 100 + bets.loss.length := by
  have hlenW : 0 < bets.win.length := length_pos_of_sideTotal_pos _ hW
  have hlenL : 0 < bets.loss.length := length_pos_of_sideTotal_pos _ hL
  have hT' : 100 ≤ sideTotal bets.win + sideTotal bets.loss := hT
  rw [calculate_payouts_loss_general bets mult (by omega) (by omega) (by omega) (by omega),
      totalPayout_append, payout_sum_losers, Nat.zero_add]
  set W := sideTotal bets.loss with hWdef
  set P := sideTotal bets.win + sideTotal bets.loss
      - houseTake (sideTotal bets.win + sideTotal bets.loss) with hPdef
  have hwin : totalPayout (bets.loss.map fun p =>
        let payout := P * p.2 / W
        (p.1, BetResult.mk payout ((payout : Int) - (p.2 : Int)) p.2 Side.loss none))
      = (bets.loss.map fun p => P * p.2 / W).sum := by
    simp [totalPayout, List.map_map, Function.comp_def]
  rw [hwin]
  have h1 : (bets.loss.map fun p => P * p.2 / W)
      = ((bets.loss.map fun p => P * p.2).map fun x => x / W) := by
    rw [List.map_map]; rfl
  have h2 : (bets.loss.map fun p => P * p.2).sum = P * W := by
    rw [hWdef]
    simpa [sideTotal] using List.sum_map_mul_left bets.loss (fun p => p.2) P
  rw [h1]
  calc ((bets.loss.map fun p => P * p.2).map fun x => x / W).sum
      ≤ (bets.loss.map fun p => P * p.2).sum / W := sum_div_le_div_sum _ _
    _ = P * W / W := by rw [h2]
    _ = P := Nat.mul_div_cancel _ hL
    _ ≤ poolTotal bets * 95 / 100 + 1 := by rw [hPdef]; exact dist_pool_le _ hT'
    _ ≤ poolTotal bets * 95 / 100 + bets.loss.length := by omega

/-- Witness for the amended C2 at the pool win={A:100}, loss={B:100} with
outcome loss. -/
theorem c2_total_payout_bound_witness :
    totalPayout (calculate_payouts ⟨[("A", 100)], [("B", 100)]⟩ .loss (fun _ => 110))
      ≤ poolTotal ⟨[("A", 100)], [("B", 100)]⟩ * 95 / 100
          + ([(("B" : UserId), (100 : Nat))]).length :=
  c2_total_payout_bound ⟨[("A", 100)], [("B", 100)]⟩ (fun _ => 110)
    (by decide) (by decide) (by decide)

/-- C3 counterexample: a sole bettor of 7 on loss with outcome loss is paid
`7 + max(1, int(7*0.25))` = 7 + 1 = 8 by `calculate_payouts`, while the
claim's formula `stake + max(1, round(0.25×stake))` gives
7 + max(1, round(1.75)) = 9: the code truncates the 25% bonus, it does not
round it. -/
theorem c3_sole_bettor_cex :
    (lookupResult (calculate_payouts ⟨[], [("A", 7)]⟩ .loss (fun _ => 105)) "A").map
        (fun r => r.payout) = some 8 ∧
    (7 : Int) + specSoleBonus 7 = 9 ∧ (8 : Int) ≠ 9 := by
  refine ⟨by decide, ?_, by decide⟩
  have h : round (((7 : Nat) : ℚ) * (25 / 100)) = 2 := by
    rw [round_eq, show ((((7 : Nat) : ℚ)) * (25 / 100) + 1 / 2) = 9 / 4 by push_cast; ring_nf]
    rw [Int.floor_eq_iff]
    norm_num
  rw [specSoleBonus, h]
  decide

/-- C3 amended: for a pool whose only bettor in total bet the winning side,
`calculate_payouts` pays that bettor `stake + max(1, floor(0.25×stake))`
(truncated, not rounded), with the bonus additionally scaled by the random
draw and floored when the winning side is "win"; in particular a sole bettor
of 40 on loss with outcome loss receives payout 50, profit 10, and no
multiplier. -/
theorem c3_sole_bettor (s : Nat) (hs : 0 < s) (u : UserId) (m : Nat) :
    calculate_payouts ⟨[], [(u, s)]⟩ .loss (fun _ => m)
      = [(u, ⟨s + max 1 (s * 25 / 100), ((max 1 (s * 25 / 100) : Nat) : Int), s, .loss, none⟩)] ∧
    calculate_payouts ⟨[(u, s)], []⟩ .win (fun _ => m)
      = [(u, ⟨s + max 1 (s * 25 / 100) * m / 100,
              ((max 1 (s * 25 / 100) * m / 100 : Nat) : Int), s, .win, some m⟩)] ∧
    calculate_payouts ⟨[], [("A", 40)]⟩ .loss (fun _ => m)
      = [("A", ⟨50, 10, 40, .loss, none⟩)] := by
  refine ⟨?_, ?_, rfl⟩
  · unfold calculate_payouts
    simp [sideOf, sideTotal, hs.ne']
  · unfold calculate_payouts
    simp [sideOf, sideTotal, hs.ne']

/-- Witness for the amended C3: Scenario B (sole bettor of 40 on loss,
outcome loss, payout 50, profit 10, no multiplier). -/
theorem c3_sole_bettor_witness :
    calculate_payouts ⟨[], [("A", 40)]⟩ .loss (fun _ => 110)
      = [("A", ⟨50, 10, 40, .loss, none⟩)] :=
  (c3_sole_bettor 40 (by decide) "A" 110).2.2

/-- C4 counterexample: for win={A:30, B:70}, loss={}, outcome win and the
draw 1.10 for A, `calculate_payouts` pays A `30 + int(6*1.10)` = 36, while
the claim's formula `floor((30+6)×m)` gives `floor(36×1.10)` = 39: the code
scales only the bonus by the multiplier, not the whole refund. -/
theorem c4_losing_empty_cex :
    (lookupResult (calculate_payouts ⟨[("A", 30), ("B", 70)], []⟩ .win (fun _ => 110)) "A").map
        (fun r => r.payout) = some 36 ∧
    (30 + max 1 (30 * 20 / 100)) * 110 / 100 = 39 ∧
    (36 : Nat) ≠ 39 := by decide

/-- Unfolding of `calculate_payouts` when the losing side total is 0, there
are 2+ bettors and the winning side is "win": every winning bettor is
refunded `stake + floor(max(1, floor(0.20×stake)) × m)` with their own
multiplier draw `m` recorded. -/
theorem c4_aux (bets : Bets) (mult : UserId → Nat)
    (hW : 0 < sideTotal bets.win)
    (hL : sideTotal bets.loss = 0)
    (h2 : 2 ≤ bets.win.length + bets.loss.length) :
    calculate_payouts bets .win mult
      = (bets.loss.map fun p => (p.1, BetResult.mk 0 (-(p.2 : Int)) p.2 Side.loss none))
        ++ (bets.win.map fun p =>
             let bonus2 := max 1 (p.2 * 20 / 100) * mult p.1 / 100
             (p.1, BetResult.mk (p.2 + bonus2) (bonus2 : Int) p.2 Side.win (some (mult p.1)))) := by
  unfold calculate_payouts
  simp only [sideOf, hL, Nat.add_zero, hW.ne', eq_self_iff_true, if_true, ite_true,
    ite_false, if_false, reduceCtorEq]
  rw [if_neg (by omega)]

/-- C4 amended: for every pool with 2+ bettors, losing-side total 0 and
winning side "win", each winning bettor's payout is
`stake + floor(max(1, floor(0.20×stake)) × m)` — the multiplier scales the
bonus only, not the whole refund; concretely, for win={A:30, B:70}, loss={},
outcome win, A receives `30 + floor(6×m_A)` and B receives
`70 + floor(14×m_B)`. -/
theorem c4_losing_side_empty (bets : Bets) (mult : UserId → Nat)
    (hW : 0 < sideTotal bets.win)
    (hL : sideTotal bets.loss = 0)
    (h2 : 2 ≤ bets.win.length + bets.loss.length) :
    (calculate_payouts bets .win mult
      = (bets.loss.map fun p => (p.1, BetResult.mk 0 (-(p.2 : Int)) p.2 Side.loss none))
        ++ (bets.win.map fun p =>
             let bonus2 := max 1 (p.2 * 20 / 100) * mult p.1 / 100
             (p.1, BetResult.mk (p.2 + bonus2) (bonus2 : Int) p.2 Side.win (some (mult p.1))))) ∧
    calculate_payouts ⟨[("A", 30), ("B", 70)], []⟩ .win mult
      = [("A", ⟨30 + 6 * mult "A" / 100, ((6 * mult "A" / 100 : Nat) : Int), 30, .win,
            some (mult "A")⟩),
         ("B", ⟨70 + 14 * mult "B" / 100, ((14 * mult "B" / 100 : Nat) : Int), 70, .win,
            some (mult "B")⟩)] := by
  refine ⟨c4_aux bets mult hW hL h2, ?_⟩
  rw [c4_aux ⟨[("A", 30), ("B", 70)], []⟩ mult (by decide) rfl (by decide)]
  norm_num

/-- Witness for the amended C4 at the constant draw 1.10:
A receives 36, B receives 85. -/
theorem c4_losing_side_empty_witness :
    calculate_payouts ⟨[("A", 30), ("B", 70)], []⟩ .win (fun _ => 110)
      = [("A", ⟨36, 6, 30, .win, some 110⟩), ("B", ⟨85, 15, 70, .win, some 110⟩)] := by
  have h := (c4_losing_side_empty ⟨[("A", 30), ("B", 70)], []⟩ (fun _ => 110)
    (by decide) rfl (by decide)).2
  simpa using h

/-- `get_balance` returns the effective balance and the account-materialized
state. -/
theorem get_balance_eq (s : BotState) (u : UserId) :
    get_balance s u = (effectiveBalance s u, ensureAccount s u) := by
  unfold get_balance ensureAccount
  cases h : s.balances u with
  | none =>
      have he : effectiveBalance s u = STARTING_BALANCE := by
        unfold effectiveBalance; rw [h]; rfl
      rw [he]
  | some b =>
      have he : effectiveBalance s u = b := by
        unfold effectiveBalance; rw [h]; rfl
      rw [he]
      have hfun : (fun v => if v = u then some b else s.balances v) = s.balances := by
        funext v
        by_cases hv : v = u
        · subst hv; simp [h]
        · simp [hv]
      rw [hfun]

/-- `update_balance` stores `max(0, balance-as-returned-by-get_balance +
amount)` for the updated user. -/
theorem update_balance_balances_self (s : BotState) (u : UserId) (amount : Int) :
    (update_balance s u amount).balances u
      = some (max 0 (effectiveBalance s u + amount)) := by
  unfold update_balance
  rw [get_balance_eq]
  show (if u = u then some (if effectiveBalance s u + amount < 0 then 0
          else effectiveBalance s u + amount)
        else (ensureAccount s u).balances u)
      = some (max 0 (effectiveBalance s u + amount))
  rw [if_pos rfl]
  congr 1
  omega

/-- C10: for every user and every integer amount (positive or negative),
`update_balance` sets the stored balance to `max(0, previous balance +
amount)` — the previous balance being the one `get_balance` returns,
`STARTING_BALANCE` for a fresh account: a debit larger than the current
balance silently clamps the balance to 0 instead of failing, so the amount
actually removed can be less than the requested debit. -/
theorem c10_update_balance_clamps (s : BotState) (u : UserId) (amount : Int) :
    (update_balance s u amount).balances u
      = some (max 0 ((s.balances u).getD STARTING_BALANCE + amount)) :=
  update_balance_balances_self s u amount

/-- `get_balance` preserves non-negativity of all balances. -/
theorem nonneg_get_balance (s : BotState) (u : UserId) (h : NonnegBalances s) :
    NonnegBalances (get_balance s u).2 := by
  rw [get_balance_eq]
  intro v b hv
  unfold ensureAccount at hv
  by_cases hvu : v = u
  · subst hvu
    simp only [if_pos rfl] at hv
    cases hv
    unfold effectiveBalance
    cases hb : s.balances v with
    | none => decide
    | some c => exact h v c hb
  · simp only [if_neg hvu] at hv
    exact h v b hv

/-- `update_balance` preserves non-negativity of all balances. -/
theorem nonneg_update_balance (s : BotState) (u : UserId) (a : Int)
    (h : NonnegBalances s) : NonnegBalances (update_balance s u a) := by
  unfold update_balance
  rw [get_balance_eq]
  intro v b hv
  by_cases hvu : v = u
  · subst hvu
    simp only [if_pos rfl] at hv
    cases hv
    split
    · exact le_refl 0
    · omega
  · simp only [if_neg hvu] at hv
    exact nonneg_get_balance s u h v b (by rw [get_balance_eq]; exact hv)

/-- `set_balance` preserves non-negativity of all balances. -/
theorem nonneg_set_balance (s : BotState) (u : UserId) (a : Int)
    (h : NonnegBalances s) : NonnegBalances (set_balance s u a) := by
  unfold set_balance
  rw [get_balance_eq]
  intro v b hv
  by_cases hvu : v = u
  · subst hvu
    simp only [if_pos rfl] at hv
    cases hv
    exact le_max_left 0 a
  · simp only [if_neg hvu] at hv
    exact nonneg_get_balance s u h v b (by rw [get_balance_eq]; exact hv)

/-- C7: starting from any state with non-negative balances, any sequence of
account creations, balance updates (wager debits, payout credits, daily
bonuses) and admin balance-settings leaves every stored balance ≥ 0. -/
theorem c7_balances_nonneg (s : BotState) (ops : List LedgerOp)
    (h : NonnegBalances s) : NonnegBalances (applyLedgerOps s ops) := by
  induction ops generalizing s with
  | nil => exact h
  | cons op t ih =>
      have h1 : NonnegBalances (applyLedgerOp s op) := by
        cases op with
        | create u => exact nonneg_get_balance s u h
        | update u a => exact nonneg_update_balance s u a h
        | setBal u a => exact nonneg_set_balance s u a h
      exact ih (applyLedgerOp s op) h1

/-- Witness for C7: from the empty ledger, creating an account, debiting it
far below zero and admin-setting another account to a negative amount still
leaves every stored balance non-negative. -/
theorem c7_balances_nonneg_witness :
    NonnegBalances (applyLedgerOps
      ⟨fun _ => none, fun _ => none⟩
      [.create "a", .update "a" (-500), .setBal "b" (-3)]) :=
  c7_balances_nonneg ⟨fun _ => none, fun _ => none⟩
    [.create "a", .update "a" (-500), .setBal "b" (-3)]
    (fun _ _ hv => Option.noConfusion hv)

/-- `update_balance` never touches the active-pool map. -/
theorem update_balance_activeBets (s : BotState) (u : UserId) (a : Int) :
    (update_balance s u a).activeBets = s.activeBets := by
  unfold update_balance
  rw [get_balance_eq]
  rfl

/-- `apply_payouts` never touches the active-pool map. -/
theorem apply_payouts_activeBets (s : BotState) (l : List (UserId × BetResult)) :
    (apply_payouts s l).activeBets = s.activeBets := by
  induction l generalizing s with
  | nil => rfl
  | cons q t ih =>
      have h1 : apply_payouts s (q :: t)
          = apply_payouts
              (if 0 < q.2.payout then update_balance s q.1 (q.2.payout : Int) else s) t := rfl
      rw [h1, ih]
      split
      · exact update_balance_activeBets _ _ _
      · rfl

/-- C6: settling removes the pool from the active-pool map before any payout
is applied, so every pool is settled at most once: after `resolve_bets` the
key is gone from the map, and invoking `resolve_bets` a second time with the
same key (any outcome, any draws) is a no-op that changes no balance and no
state. -/
theorem c6_settle_once (s : BotState) (key : BetKey) (o o2 : Side)
    (m m2 : UserId → Nat) :
    (resolve_bets s key o m).activeBets key = none ∧
    resolve_bets (resolve_bets s key o m) key o2 m2 = resolve_bets s key o m := by
  have hnone : (resolve_bets s key o m).activeBets key = none := by
    unfold resolve_bets
    cases h : s.activeBets key with
    | none => exact h
    | some pool =>
        show (if poolTotal pool.bets = 0
              then { s with activeBets := fun k => if k = key then none else s.activeBets k }
              else apply_payouts
                { s with activeBets := fun k => if k = key then none else s.activeBets k }
                (calculate_payouts pool.bets o m)).activeBets key = none
        by_cases hz : poolTotal pool.bets = 0
        · rw [if_pos hz]; simp
        · rw [if_neg hz, apply_payouts_activeBets]; simp
  refine ⟨hnone, ?_⟩
  generalize hgen : resolve_bets s key o m = t at hnone ⊢
  unfold resolve_bets
  rw [hnone]

/-- `ensureAccount` does not change any other user's stored balance. -/
theorem ensureAccount_balances_other (s : BotState) (u v : UserId) (hv : v ≠ u) :
    (ensureAccount s u).balances v = s.balances v := by
  unfold ensureAccount
  simp [hv]

/-- `update_balance` does not change any other user's stored balance. -/
theorem update_balance_balances_other (s : BotState) (u v : UserId) (a : Int)
    (hv : v ≠ u) : (update_balance s u a).balances v = s.balances v := by
  unfold update_balance
  rw [get_balance_eq]
  show (if v = u then some (if effectiveBalance s u + a < 0 then 0
          else effectiveBalance s u + a)
        else (ensureAccount s u).balances v) = s.balances v
  rw [if_neg hv]
  exact ensureAccount_balances_other s u v hv

/-- C5 counterexample: with no ledger account for "u", a wager of
200 > STARTING_BALANCE fails with `InsufficientBalance`, yet the ledger does
not stay completely unchanged: the failing call materializes "u"'s account
at the starting balance (the `get_balance` call inside the balance check
creates and saves it). -/
theorem c5_bet_cex :
    (bet c5cexState 0 (1, "p") "u" .win 200).1 = .error .insufficientBalance ∧
    c5cexState.balances "u" = none ∧
    (bet c5cexState 0 (1, "p") "u" .win 200).2.balances "u" = some STARTING_BALANCE :=
  ⟨rfl, rfl, rfl⟩

/-- C5 amended: wager placement validates in order — `PoolClosed` when the
pool is closed or past `closesAt`, `InvalidAmount` when `amount ≤ 0`,
`InsufficientBalance` when `amount` exceeds the bettor's balance,
`DuplicateWager` when the bettor already wagered on either side.
`PoolClosed` and `InvalidAmount` failures change nothing at all;
`InsufficientBalance` and `DuplicateWager` failures leave the pool map and
every existing balance unchanged but materialize the bettor's account at
`STARTING_BALANCE` when it did not exist; on success the bettor's balance is
debited by `amount` immediately and `{bettor: amount}` is recorded under the
chosen side. -/
theorem c5_wager_validation (s : BotState) (now : Nat) (key : BetKey)
    (bettor : UserId) (side : Side) (amount : Int) (pool : BetPool)
    (hpool : s.activeBets key = some pool) :
    ((pool.closed = true ∨ pool.closesAt < now) →
        bet s now key bettor side amount = (.error .poolClosed, s)) ∧
    (pool.closed = false → now ≤ pool.closesAt → amount ≤ 0 →
        bet s now key bettor side amount = (.error .invalidAmount, s)) ∧
    (pool.closed = false → now ≤ pool.closesAt → 0 < amount →
        effectiveBalance s bettor < amount →
        bet s now key bettor side amount
          = (.error .insufficientBalance, ensureAccount s bettor)) ∧
    (pool.closed = false → now ≤ pool.closesAt → 0 < amount →
        amount ≤ effectiveBalance s bettor → hasWager pool.bets bettor = true →
        bet s now key bettor side amount
          = (.error .duplicateWager, ensureAccount s bettor)) ∧
    (pool.closed = false → now ≤ pool.closesAt → 0 < amount →
        amount ≤ effectiveBalance s bettor → hasWager pool.bets bettor = false →
        bet s now key bettor side amount
          = (.ok (),
             { balances := fun v =>
                 if v = bettor then some (effectiveBalance s bettor - amount)
                 else s.balances v,
               activeBets := fun k =>
                 if k = key
                 then some { pool with bets := recordBet pool.bets side bettor amount.toNat }
                 else s.activeBets k })) := by
  have hbet : bet s now key bettor side amount
      = (if pool.closed = true ∨ pool.closesAt < now then (.error .poolClosed, s)
         else if amount ≤ 0 then (.error .invalidAmount, s)
         else if effectiveBalance s bettor < amount
         then (.error .insufficientBalance, ensureAccount s bettor)
         else if hasWager pool.bets bettor then (.error .duplicateWager, ensureAccount s bettor)
         else (.ok (),
           { update_balance (ensureAccount s bettor) bettor (-amount) with
             activeBets := fun k =>
               if k = key
               then some { pool with bets := recordBet pool.bets side bettor amount.toNat }
               else (update_balance (ensureAccount s bettor) bettor (-amount)).activeBets k })) := by
    unfold bet
    rw [hpool]
    rw [get_balance_eq]
  refine ⟨?_, ?_, ?_, ?_, ?_⟩
  · intro h1
    rw [hbet, if_pos h1]
  · intro h1 h2 h3
    rw [hbet, if_neg (by simp [h1]; omega), if_pos h3]
  · intro h1 h2 h3 h4
    rw [hbet, if_neg (by simp [h1]; omega), if_neg (by omega), if_pos h4]
  · intro h1 h2 h3 h4 h5
    rw [hbet, if_neg (by simp [h1]; omega), if_neg (by omega), if_neg (by omega), if_pos h5]
  · intro h1 h2 h3 h4 h5
    rw [hbet, if_neg (by simp [h1]; omega), if_neg (by omega), if_neg (by omega),
        if_neg (by simp [h5])]
    refine congrArg _ ?_
    have hbal : (update_balance (ensureAccount s bettor) bettor (-amount)).balances
        = fun v => if v = bettor then some (effectiveBalance s bettor - amount)
                   else s.balances v := by
      funext v
      by_cases hv : v = bettor
      · subst hv
        rw [update_balance_balances_self (ensureAccount s v) v (-amount), if_pos rfl]
        have heff : effectiveBalance (ensureAccount s v) v = effectiveBalance s v := by
          show ((if v = v then some (effectiveBalance s v) else s.balances v)).getD
              STARTING_BALANCE = effectiveBalance s v
          rw [if_pos rfl]
          rfl
        rw [heff]
        congr 1
        omega
      · rw [if_neg hv, update_balance_balances_other _ _ _ _ hv,
            ensureAccount_balances_other _ _ _ hv]
    have hact : (update_balance (ensureAccount s bettor) bettor (-amount)).activeBets
        = s.activeBets := by
      rw [update_balance_activeBets]
      rfl
    show ({ update_balance (ensureAccount s bettor) bettor (-amount) with
            activeBets := fun k =>
              if k = key
              then some { pool with bets := recordBet pool.bets side bettor amount.toNat }
              else (update_balance (ensureAccount s bettor) bettor (-amount)).activeBets k }
          : BotState)
        = { balances := fun v =>
              if v = bettor then some (effectiveBalance s bettor - amount) else s.balances v,
            activeBets := fun k =>
              if k = key
              then some { pool with bets := recordBet pool.bets side bettor amount.toNat }
              else s.activeBets k }
    rw [show ({ update_balance (ensureAccount s bettor) bettor (-amount) with
          activeBets := fun k =>
            if k = key
            then some { pool with bets := recordBet pool.bets side bettor amount.toNat }
            else (update_balance (ensureAccount s bettor) bettor (-amount)).activeBets k }
        : BotState)
      = { balances := (update_balance (ensureAccount s bettor) bettor (-amount)).balances,
          activeBets := fun k =>
            if k = key
            then some { pool with bets := recordBet pool.bets side bettor amount.toNat }
            else (update_balance (ensureAccount s bettor) bettor (-amount)).activeBets k }
      from rfl, hbal, hact]

/-- Witness for the amended C5: a successful wager of 30 on win debits the
bettor to 70 and records the wager under the win side. -/
theorem c5_wager_validation_witness :
    bet c5wState 0 (1, "p") "u" .win 30
      = (.ok (),
         { balances := fun v =>
             if v = "u" then some (effectiveBalance c5wState "u" - 30)
             else c5wState.balances v,
           activeBets := fun k =>
             if k = ((1 : Nat), ("p" : UserId))
             then some { c5cexPool with
                           bets := recordBet c5cexPool.bets .win "u" ((30 : Int)).toNat }
             else c5wState.activeBets k }) :=
  (c5_wager_validation c5wState 0 (1, "p") "u" .win 30 c5cexPool rfl).2.2.2.2
    rfl (by decide) (by decide) (by decide) rfl

example : debounceRun 15 [(0, "A"), (5, "B"), (12, "C")] = [(27, ["A", "B", "C"])] := by decide

example : debounceRun 15 [(0, "A"), (20, "B")] = [(15, ["A"]), (35, ["B"])] := by decide

/-- C8: each arrival within the quiet period cancels the pending debounce
task and arms a fresh one, so the group flushes exactly one quiet period
after the last join: for three arrivals each within the quiet period of the
previous one there is a single flush, at last-arrival + quiet, containing
all three members; in particular arrivals at t, t+5, t+12 with a 15-unit
quiet period flush at t+27, and never at t+15. -/
theorem c8_debounce (quiet t g1 g2 : Nat) (p1 p2 p3 : UserId)
    (h1 : g1 < quiet) (h2 : g2 < quiet) :
    debounceRun quiet [(t, p1), (t + g1, p2), (t + g1 + g2, p3)]
      = [(t + g1 + g2 + quiet, [p1, p2, p3])] ∧
    debounceRun 15 [(t, p1), (t + 5, p2), (t + 12, p3)]
      = [(t + 27, [p1, p2, p3])] ∧
    ∀ ms, (t + 15, ms) ∉ debounceRun 15 [(t, p1), (t + 5, p2), (t + 12, p3)] := by
  have hconc : debounceRun 15 [(t, p1), (t + 5, p2), (t + 12, p3)]
      = [(t + 27, [p1, p2, p3])] := by
    unfold debounceRun debounceStep
    simp only [List.foldl_cons, List.foldl_nil]
    rw [if_neg (by omega)]
    dsimp only
    rw [if_neg (by omega)]
    dsimp only
    have h27 : t + 12 + 15 = t + 27 := by omega
    simp [h27]
  refine ⟨?_, hconc, ?_⟩
  · unfold debounceRun debounceStep
    simp only [List.foldl_cons, List.foldl_nil]
    rw [if_neg (by omega)]
    dsimp only
    rw [if_neg (by omega)]
    dsimp only
    simp
  · intro ms hmem
    rw [hconc] at hmem
    simp only [List.mem_singleton, Prod.mk.injEq] at hmem
    omega

/-- Witness for C8 at t = 0 with gaps 5 and 7 and quiet period 15
(`GROUP_WAIT_TIME`): one flush at 27 with all three members. -/
theorem c8_debounce_witness :
    debounceRun GROUP_WAIT_TIME [(0, "A"), (0 + 5, "B"), (0 + 5 + 7, "C")]
      = [(0 + 5 + 7 + GROUP_WAIT_TIME, ["A", "B", "C"])] :=
  (c8_debounce GROUP_WAIT_TIME 0 5 7 "A" "B" "C" (by decide) (by decide)).1

/-- C9: the poller visits players in round-robin order over the current
session set, the cursor reduced modulo the current session count; with 3
active sessions and no removals, four consecutive ticks starting from
cursor 0 visit indices 0, 1, 2, 0. -/
theorem c9_round_robin (s0 s1 s2 : UserId) :
    (∀ idx : Nat, pollPick [s0, s1, s2] idx = ([s0, s1, s2][idx % 3]?, idx % 3 + 1)) ∧
    pollVisits [s0, s1, s2] 0 4 = [some s0, some s1, some s2, some s0] := by
  constructor
  · intro idx; rfl
  · simp [pollVisits, pollPick]

end DiscordPostplant
